import Mathlib

/-!
A shallow embedding of the cluster-topology and fragment-placement
directory of the pilosa repository (`db/topology.go`), together with
theorems checking the specification's claims against it.

Go heap pointers for `Frame` and `Slice` are modelled by a `ref` field
drawn from an allocation counter carried in the `Database`; Go methods
that mutate their receiver become functions returning the updated value;
fallible Go calls returning `(T, error)` become `Except DbError T`.
-/

/-- Fragment identifiers (`util.SUUID`, an unsigned 64-bit id from the
`util` package, outside these sources), modelled as naturals. -/
abbrev SUUID := Nat

/-- Node identifiers (`util.GUID`, opaque), modelled as naturals. -/
abbrev GUID := Nat

/-- A Go runtime panic, used to model a nil-pointer dereference. -/
inductive GoPanic
  | nilPointerDereference
deriving DecidableEq, Repr

/-- The error values declared at the top of `db/topology.go`, plus the
cluster registry miss, the empty-database error of `NumSlices`, and the
"empty circle" error of the third-party consistent-hash ring. -/
inductive DbError
  | FrameDoesNotExist
  | InvalidFrame
  | SliceDoesNotExist
  | FragmentDoesNotExist
  | FrameSliceIntersectDoesNotExist
  | DatabaseDoesNotExist
  | EmptyDatabase
  | EmptyCircle
deriving DecidableEq, Repr

/-- `Process`: a cluster node record. `id` is a `*util.GUID`, so it may be
nil, modelled as `Option GUID`. The field defaults model Go zero values. -/
structure Process where
  id : Option GUID
  host : String := ""
  port_tcp : Int := 0
  port_http : Int := 0
deriving DecidableEq, Repr

def NewProcess (id : Option GUID) : Process := { id := id }

/-- `Location`: the (process id, fragment id) address pair. -/
structure Location where
  ProcessId : Option GUID
  FragmentId : SUUID
deriving DecidableEq, Repr

/-- `Frame`: a named logical category. Frames are heap-allocated in Go and
compared by pointer identity; `ref` models the address, a fresh value from
the owning database's allocation counter at each allocation. -/
structure Frame where
  ref : Nat
  name : String
deriving DecidableEq, Repr

/-- `Slice`: a vertical partition of the item-id space, with a pointer
identity `ref` like `Frame`. -/
structure Slice where
  ref : Nat
  id : Int
deriving DecidableEq, Repr

def Slice.Id (self : Slice) : Int := self.id

/-- `Fragment`: a shard identifier plus an optional owning process
(`process *Process`, nil until `SetProcess`). -/
structure Fragment where
  id : SUUID
  process : Option Process := none
deriving DecidableEq, Repr

/-- Modelled from the spec: the third-party ring (`stathat/consistent`,
outside these sources) hashes ring keys to 32-bit positions with crc32;
any fixed deterministic 32-bit string hash yields the specified
nearest-clockwise lookup semantics, so a polynomial hash stands in. -/
def hashKey (s : String) : Nat :=
  s.data.foldl (fun h c => (h * 131 + c.toNat) % 4294967296) 0

/-- Modelled from the spec: the third-party consistent-hash ring state:
a replication factor and the members added so far. -/
structure Consistent where
  NumberOfReplicas : Nat
  members : List String
deriving DecidableEq, Repr

/-- Modelled from the spec: `consistent.New()`; the library's default
replication factor is 20 before `AddFrameSliceIntersect` sets it to 16. -/
def Consistent.New : Consistent := { NumberOfReplicas := 20, members := [] }

/-- Modelled from the spec: each member occupies `NumberOfReplicas`
virtual positions on the hash circle, at the hashes of its indexed keys. -/
def Consistent.points (c : Consistent) : List (Nat × String) :=
  c.members.flatMap fun m =>
    (List.range c.NumberOfReplicas).map fun i => (hashKey (toString i ++ m), m)

/-- The point with the least position (leftmost on ties), if any. -/
def minPoint : List (Nat × String) → Option (Nat × String)
  | [] => none
  | p :: ps =>
    match minPoint ps with
    | none => some p
    | some q => some (if p.1 ≤ q.1 then p else q)

/-- Modelled from the spec: ring lookup — hash the key, resolve to the
nearest member position clockwise (the least position at or above the key
hash, wrapping to the least position overall); an empty ring fails. -/
def Consistent.Get (c : Consistent) (key : String) : Except DbError String :=
  match c.members with
  | [] => .error .EmptyCircle
  | _ :: _ =>
    match minPoint (c.points.filter fun p => hashKey key ≤ p.1) with
    | some p => .ok p.2
    | none =>
      match minPoint c.points with
      | some p => .ok p.2
      | none => .error .EmptyCircle

/-- Modelled from the spec: `Add(member)` inserts a member into the ring. -/
def Consistent.Add (c : Consistent) (elt : String) : Consistent :=
  { c with members := c.members ++ [elt] }

/-- The lowercase hex digit for a value below 16. -/
def hexDigitChar (n : Nat) : Char :=
  if n < 10 then Char.ofNat (48 + n) else Char.ofNat (87 + n)

/-- The value of a lowercase hex digit. -/
def hexCharVal (c : Char) : Nat :=
  if 97 ≤ c.toNat then c.toNat - 87 else c.toNat - 48

/-- Little-endian hex digit expansion of a natural number. -/
def natToHexRev (n : Nat) : List Char :=
  if h : n = 0 then [] else hexDigitChar (n % 16) :: natToHexRev (n / 16)
decreasing_by exact Nat.div_lt_self (Nat.pos_of_ne_zero h) (by decide)

/-- Value of a little-endian hex digit list. -/
def hexRevToNat : List Char → Nat
  | [] => 0
  | c :: cs => hexCharVal c + 16 * hexRevToNat cs

/-- Modelled from the spec: `util.SUUID_to_Hex` (outside these sources)
renders a fragment identifier in lowercase hex, as Go's `%x` does. -/
def SUUID_to_Hex (n : SUUID) : String :=
  if n = 0 then "0" else String.mk (natToHexRev n).reverse

/-- Modelled from the spec: `util.Hex_to_SUUID` (outside these sources)
parses the hex form back into the fragment identifier. -/
def Hex_to_SUUID (s : String) : SUUID := hexRevToNat s.data.reverse

/-- Modelled from the spec: the allow-list that
`config.GetStringArrayDefault("supported_frames", ["default"])` yields
under the default configuration. The configuration is threaded through the
database operations as an explicit `supported_frames` argument. -/
def default_supported_frames : List String := ["default"]

def stringInSlice (a : String) (list : List String) : Bool :=
  list.any fun b => b == a

/-- `Database.IsValidFrame`: membership of the name in the allow-list. -/
def IsValidFrame (supported_frames : List String) (name : String) : Bool :=
  stringInSlice name supported_frames

/-- `FrameSliceIntersect`: the join of one frame and one slice, with its
fragment set and consistent-hash ring. -/
structure FrameSliceIntersect where
  frame : Frame
  slice : Slice
  fragments : List Fragment
  hashring : Consistent
deriving DecidableEq, Repr

/-- `Database`: frames, slices, and frame-slice intersects of one logical
dataset. `nextRef` models the Go allocator: the next fresh pointer value
for a `Frame` or `Slice` allocation. -/
structure Database where
  Name : String
  frames : List Frame
  slices : List Slice
  frame_slice_intersects : List FrameSliceIntersect
  nextRef : Nat
deriving DecidableEq, Repr

/-- The zero-valued `Database{Name: name}` that `Cluster.addDatabase`
allocates. -/
def emptyDatabase (name : String) : Database :=
  { Name := name, frames := [], slices := [], frame_slice_intersects := [], nextRef := 0 }

def Database.GetFrameSliceIntersects (d : Database) : List FrameSliceIntersect :=
  d.frame_slice_intersects

/-- `Cluster`: the registry mapping database name to database, the Go map
modelled as a function. -/
structure Cluster where
  databases : String → Option Database

def NewCluster : Cluster := { databases := fun _ => none }

def Cluster.getDatabase (c : Cluster) (name : String) : Except DbError Database :=
  match c.databases name with
  | some value => .ok value
  | none => .error .DatabaseDoesNotExist

def Cluster.addDatabase (c : Cluster) (name : String) : Cluster × Database :=
  let database := emptyDatabase name
  ({ databases := fun n => if n = name then some database else c.databases n }, database)

def Cluster.GetOrCreateDatabase (c : Cluster) (name : String) : Cluster × Database :=
  match c.getDatabase name with
  | .ok database => (c, database)
  | .error _ => c.addDatabase name

/-- `Database.getFrame`: reject names outside the allow-list, then scan
the frame list by name. -/
def Database.getFrame (d : Database) (supported_frames : List String) (name : String) :
    Except DbError Frame :=
  if !(IsValidFrame supported_frames name) then .error .InvalidFrame
  else
    match d.frames.find? (fun frame => frame.name == name) with
    | some frame => .ok frame
    | none => .error .FrameDoesNotExist

/-- The intersect that `Database.AddFrameSliceIntersect` allocates: empty
fragment set, fresh ring with its replication factor set to 16. -/
def newFrameSliceIntersect (frame : Frame) (slice : Slice) : FrameSliceIntersect :=
  { frame := frame, slice := slice, fragments := [],
    hashring := { Consistent.New with NumberOfReplicas := 16 } }

/-- `Database.AddFrameSliceIntersect` appends the new intersect; the Go
method also returns the pointer, which all callers ignore. -/
def Database.AddFrameSliceIntersect (d : Database) (frame : Frame) (slice : Slice) : Database :=
  { d with frame_slice_intersects :=
      d.frame_slice_intersects ++ [newFrameSliceIntersect frame slice] }

/-- `Database.addFrame`: allocate a frame, append it, then add an
intersect against every existing slice. -/
def Database.addFrame (d : Database) (name : String) : Database × Frame :=
  let frame : Frame := { ref := d.nextRef, name := name }
  let d1 : Database := { d with frames := d.frames ++ [frame], nextRef := d.nextRef + 1 }
  (d1.slices.foldl (fun acc slice => acc.AddFrameSliceIntersect frame slice) d1, frame)

/-- `Database.GetOrCreateFrame`: return the frame `getFrame` finds, and on
any `getFrame` error (including `InvalidFrame`) fall through to
`addFrame`. -/
def Database.GetOrCreateFrame (d : Database) (supported_frames : List String) (name : String) :
    Database × Frame :=
  match d.getFrame supported_frames name with
  | .ok frame => (d, frame)
  | .error _ => d.addFrame name

def Database.getSlice (d : Database) (slice_id : Int) : Except DbError Slice :=
  match d.slices.find? (fun slice => slice.id == slice_id) with
  | some slice => .ok slice
  | none => .error .SliceDoesNotExist

/-- `Database.addSlice`: allocate a slice, append it, then add an
intersect against every existing frame. -/
def Database.addSlice (d : Database) (slice_id : Int) : Database × Slice :=
  let slice : Slice := { ref := d.nextRef, id := slice_id }
  let d1 : Database := { d with slices := d.slices ++ [slice], nextRef := d.nextRef + 1 }
  (d1.frames.foldl (fun acc frame => acc.AddFrameSliceIntersect frame slice) d1, slice)

def Database.GetOrCreateSlice (d : Database) (slice_id : Int) : Database × Slice :=
  match d.getSlice slice_id with
  | .ok slice => (d, slice)
  | .error _ => d.addSlice slice_id

/-- The pointer comparison `frameslice.frame == frame && frameslice.slice
== slice`, decidable on the `ref`-tagged values. -/
def fsiMatches (frame : Frame) (slice : Slice) (fsi : FrameSliceIntersect) : Bool :=
  decide (fsi.frame = frame) && decide (fsi.slice = slice)

def Database.GetFrameSliceIntersect (d : Database) (frame : Frame) (slice : Slice) :
    Except DbError FrameSliceIntersect :=
  match d.frame_slice_intersects.find? (fsiMatches frame slice) with
  | some frameslice => .ok frameslice
  | none => .error .FrameSliceIntersectDoesNotExist

def FrameSliceIntersect.GetFragments (self : FrameSliceIntersect) : List Fragment :=
  self.fragments

def FrameSliceIntersect.GetFragment (self : FrameSliceIntersect) (fragment_id : SUUID) :
    Except DbError Fragment :=
  match self.fragments.find? (fun fragment => fragment.id == fragment_id) with
  | some fragment => .ok fragment
  | none => .error .FragmentDoesNotExist

/-- `FrameSliceIntersect.AddFragment`: append the fragment and insert its
hex-encoded identifier into the ring. -/
def FrameSliceIntersect.AddFragment (self : FrameSliceIntersect) (fragment : Fragment) :
    FrameSliceIntersect :=
  { self with fragments := self.fragments ++ [fragment],
              hashring := self.hashring.Add (SUUID_to_Hex fragment.id) }

def Fragment.GetId (self : Fragment) : SUUID := self.id

def Fragment.GetProcess (self : Fragment) : Option Process := self.process

/-- `self.process.id` dereferences the `process` pointer: with an
unassigned (nil) process the Go code panics; the panic is the `.error`
case. -/
def Fragment.GetProcessId (self : Fragment) : Except GoPanic (Option GUID) :=
  match self.process with
  | none => .error .nilPointerDereference
  | some process => .ok process.id

/-- `GetLocation` also dereferences `self.process` and so panics on an
unassigned process. -/
def Fragment.GetLocation (self : Fragment) : Except GoPanic Location :=
  match self.process with
  | none => .error .nilPointerDereference
  | some process => .ok { ProcessId := process.id, FragmentId := self.id }

def Fragment.SetProcess (f : Fragment) (process : Process) : Fragment :=
  { f with process := some process }

/-- `Bitmap`: the transient lookup key (`Id` and `Filter` are uint64). -/
structure Bitmap where
  Id : Nat
  FrameType : String
  Filter : Nat
deriving DecidableEq, Repr

/-- `Database.GetFragmentForBitmap`: resolve the frame from
`bitmap.FrameType`, the intersect from (frame, slice), look the decimal
rendering of `bitmap.Id` up in the ring, decode the member back to a
fragment id and fetch that fragment. The Go method performs no writes, so
it is a pure function of the database value. -/
def Database.GetFragmentForBitmap (d : Database) (supported_frames : List String)
    (slice : Slice) (bitmap : Bitmap) : Except DbError Fragment :=
  match d.getFrame supported_frames bitmap.FrameType with
  | .error err => .error err
  | .ok frame =>
    match d.GetFrameSliceIntersect frame slice with
    | .error err => .error err
    | .ok fsi =>
      match fsi.hashring.Get (toString bitmap.Id) with
      | .error err => .error err
      | .ok frag_id_s => fsi.GetFragment (Hex_to_SUUID frag_id_s)

/-- `Database.GetFragmentForFrameSlice`: the sentinel-key variant. -/
def Database.GetFragmentForFrameSlice (d : Database) (frame : Frame) (slice : Slice) :
    Except DbError Fragment :=
  match d.GetFrameSliceIntersect frame slice with
  | .error err => .error err
  | .ok fsi =>
    match fsi.hashring.Get "0" with
    | .error err => .error err
    | .ok frag_id_s => fsi.GetFragment (Hex_to_SUUID frag_id_s)

def Database.getFragment (d : Database) (frame : Frame) (slice : Slice)
    (fragment_id : SUUID) : Except DbError Fragment :=
  match d.GetFrameSliceIntersect frame slice with
  | .error err => .error err
  | .ok fsi => fsi.GetFragment fragment_id

/-- Replace the first list entry satisfying `p` by its image under `f`;
models in-place mutation through the pointer `find?` returned. -/
def updateFirst (p : α → Bool) (f : α → α) : List α → List α
  | [] => []
  | a :: as => if p a then f a :: as else a :: updateFirst p f as

/-- `Database.addFragment`: on a missing intersect Go logs and returns
nil, modelled as `none`; otherwise a fresh process-less fragment is added
to the intersect found. -/
def Database.addFragment (d : Database) (frame : Frame) (slice : Slice)
    (fragment_id : SUUID) : Database × Option Fragment :=
  match d.GetFrameSliceIntersect frame slice with
  | .error _ => (d, none)
  | .ok _ =>
    let fragment : Fragment := { id := fragment_id, process := none }
    let fsis := updateFirst (fsiMatches frame slice)
      (fun fsi => fsi.AddFragment fragment) d.frame_slice_intersects
    ({ d with frame_slice_intersects := fsis }, some fragment)

def Database.GetOrCreateFragment (d : Database) (frame : Frame) (slice : Slice)
    (fragment_id : SUUID) : Database × Option Fragment :=
  match d.getFragment frame slice fragment_id with
  | .ok fragment => (d, some fragment)
  | .error _ => d.addFragment frame slice fragment_id

def Database.NumSlices (d : Database) : Except DbError Int :=
  if d.slices.length < 1 then .error .EmptyDatabase
  else .ok (Int.ofNat d.slices.length)

/-- Modelled from the spec: the `SLICE_WIDTH` constant (1048576) is
declared elsewhere in the `db` package, outside these sources. -/
def SLICE_WIDTH : Nat := 1048576

/-- `GetSlice` (the spec's `ComputeSliceId`): uint64 floor division by the
slice width, cast to int. -/
def GetSlice (profile_id : Nat) : Int := Int.ofNat (profile_id / SLICE_WIDTH)

def Database.GetSliceForProfile (d : Database) (profile_id : Nat) : Except DbError Slice :=
  d.getSlice (GetSlice profile_id)

/-- Whether an `Except` result is a success. -/
def exceptOk : Except ε α → Bool
  | .ok _ => true
  | .error _ => false

/-- One topology mutation: a `GetOrCreateFrame` or `GetOrCreateSlice`
call. -/
inductive TopologyOp
  | frameOp (name : String)
  | sliceOp (id : Int)
deriving DecidableEq, Repr

def Database.applyOp (d : Database) (supported_frames : List String) : TopologyOp → Database
  | .frameOp name => (d.GetOrCreateFrame supported_frames name).1
  | .sliceOp id => (d.GetOrCreateSlice id).1

def Database.applyOps (d : Database) (supported_frames : List String)
    (ops : List TopologyOp) : Database :=
  ops.foldl (fun acc op => acc.applyOp supported_frames op) d

/-- How many intersects a database holds for one (frame, slice) pair. -/
def countFSI (d : Database) (frame : Frame) (slice : Slice) : Nat :=
  (d.frame_slice_intersects.filter (fsiMatches frame slice)).length

/-- The internal well-formedness of a database reachable by frame/slice
registration: allocation refs are below the counter, frame and slice
lists are duplicate-free, every intersect joins a registered frame and
slice, and every registered (frame, slice) pair has exactly one
intersect. -/
structure DbInv (d : Database) : Prop where
  frameRef : ∀ f ∈ d.frames, f.ref < d.nextRef
  sliceRef : ∀ s ∈ d.slices, s.ref < d.nextRef
  framesNodup : d.frames.Nodup
  slicesNodup : d.slices.Nodup
  fsiFrame : ∀ fsi ∈ d.frame_slice_intersects, fsi.frame ∈ d.frames
  fsiSlice : ∀ fsi ∈ d.frame_slice_intersects, fsi.slice ∈ d.slices
  countOne : ∀ f ∈ d.frames, ∀ s ∈ d.slices, countFSI d f s = 1

/-! ## Helper lemmas -/

theorem hexCharVal_hexDigitChar : ∀ n : Nat, n < 16 → hexCharVal (hexDigitChar n) = n := by
  decide

theorem hexRevToNat_natToHexRev (n : Nat) : hexRevToNat (natToHexRev n) = n := by
  induction n using Nat.strong_induction_on with
  | _ n ih =>
    rw [natToHexRev]
    by_cases h : n = 0
    · simp [h, hexRevToNat]
    · simp only [h, dite_false, hexRevToNat]
      rw [hexCharVal_hexDigitChar _ (Nat.mod_lt n (by decide)),
        ih (n / 16) (Nat.div_lt_self (Nat.pos_of_ne_zero h) (by decide))]
      omega

theorem hex_roundtrip (n : SUUID) : Hex_to_SUUID (SUUID_to_Hex n) = n := by
  unfold SUUID_to_Hex Hex_to_SUUID
  by_cases h : n = 0
  · simp [h]
    decide
  · simp only [h, if_false]
    show hexRevToNat (natToHexRev n).reverse.reverse = n
    rw [List.reverse_reverse]
    exact hexRevToNat_natToHexRev n

theorem minPoint_mem {l : List (Nat × String)} {p : Nat × String}
    (h : minPoint l = some p) : p ∈ l := by
  induction l with
  | nil => simp [minPoint] at h
  | cons a as ih =>
    rw [minPoint] at h
    cases hm : minPoint as with
    | none => rw [hm] at h; simp at h; simp [h]
    | some q =>
      rw [hm] at h
      simp at h
      by_cases hle : a.1 ≤ q.1
      · simp [hle] at h; simp [h]
      · simp [hle] at h
        exact List.mem_cons_of_mem _ (ih (h ▸ hm))

theorem minPoint_eq_none {l : List (Nat × String)} (h : minPoint l = none) : l = [] := by
  cases l with
  | nil => rfl
  | cons a as =>
    rw [minPoint] at h
    cases hm : minPoint as <;> rw [hm] at h <;> simp at h

theorem points_single_mem {r : Nat} {m : String} {p : Nat × String}
    (h : p ∈ Consistent.points { NumberOfReplicas := r, members := [m] }) : p.2 = m := by
  unfold Consistent.points at h
  simp at h
  obtain ⟨i, _, hp⟩ := h
  rw [← hp]

theorem consistentGet_single (r : Nat) (hr : 0 < r) (m : String) (key : String) :
    Consistent.Get { NumberOfReplicas := r, members := [m] } key = .ok m := by
  unfold Consistent.Get
  simp only
  cases h1 : minPoint ((Consistent.points { NumberOfReplicas := r, members := [m] }).filter
      fun p => hashKey key ≤ p.1) with
  | some p =>
    have hmem := List.mem_of_mem_filter (minPoint_mem h1)
    simp [points_single_mem hmem]
  | none =>
    cases h2 : minPoint (Consistent.points { NumberOfReplicas := r, members := [m] }) with
    | some p => simp [points_single_mem (minPoint_mem h2)]
    | none =>
      exfalso
      have := minPoint_eq_none h2
      unfold Consistent.points at this
      simp at this
      omega

theorem foldl_addFSI_slices (d : Database) (frame : Frame) (l : List Slice) :
    l.foldl (fun acc slice => acc.AddFrameSliceIntersect frame slice) d =
      { d with frame_slice_intersects :=
          d.frame_slice_intersects ++ l.map (newFrameSliceIntersect frame) } := by
  induction l generalizing d with
  | nil => simp
  | cons s l ih =>
    rw [List.foldl_cons, ih]
    simp [Database.AddFrameSliceIntersect]

theorem foldl_addFSI_frames (d : Database) (slice : Slice) (l : List Frame) :
    l.foldl (fun acc frame => acc.AddFrameSliceIntersect frame slice) d =
      { d with frame_slice_intersects :=
          d.frame_slice_intersects ++ l.map (fun frame => newFrameSliceIntersect frame slice) } := by
  induction l generalizing d with
  | nil => simp
  | cons f l ih =>
    rw [List.foldl_cons, ih]
    simp [Database.AddFrameSliceIntersect]

theorem filter_self_length_one {α : Type} [DecidableEq α] (l : List α) (a : α)
    (hn : l.Nodup) (ha : a ∈ l) :
    (l.filter fun x => decide (x = a)).length = 1 := by
  induction l with
  | nil => simp at ha
  | cons x xs ih =>
    rw [List.nodup_cons] at hn
    by_cases hx : x = a
    · subst hx
      have : xs.filter (fun y => decide (y = x)) = [] := by
        apply List.filter_eq_nil_iff.mpr
        intro y hy
        simp
        rintro rfl
        exact hn.1 hy
      simp [List.filter_cons, this]
    · rw [List.mem_cons] at ha
      rcases ha with rfl | ha
      · exact absurd rfl hx
      · simp [List.filter_cons, hx, ih hn.2 ha]

theorem length_filter_map_eq {α β : Type} (f : α → β) (p : β → Bool) (l : List α) :
    ((l.map f).filter p).length = (l.filter fun a => p (f a)).length := by
  induction l with
  | nil => rfl
  | cons a l ih => by_cases h : p (f a) <;> simp [List.filter_cons, h, ih]

theorem dbInv_empty (name : String) : DbInv (emptyDatabase name) := by
  constructor <;> simp [emptyDatabase]

theorem addFrame_eq (d : Database) (name : String) :
    d.addFrame name =
      ({ d with
          frames := d.frames ++ [{ ref := d.nextRef, name := name }],
          frame_slice_intersects := d.frame_slice_intersects ++
            d.slices.map (newFrameSliceIntersect { ref := d.nextRef, name := name }),
          nextRef := d.nextRef + 1 },
       { ref := d.nextRef, name := name }) := by
  unfold Database.addFrame
  dsimp only
  rw [foldl_addFSI_slices]

theorem addSlice_eq (d : Database) (slice_id : Int) :
    d.addSlice slice_id =
      ({ d with
          slices := d.slices ++ [{ ref := d.nextRef, id := slice_id }],
          frame_slice_intersects := d.frame_slice_intersects ++
            d.frames.map (fun frame =>
              newFrameSliceIntersect frame { ref := d.nextRef, id := slice_id }),
          nextRef := d.nextRef + 1 },
       { ref := d.nextRef, id := slice_id }) := by
  unfold Database.addSlice
  dsimp only
  rw [foldl_addFSI_frames]

theorem dbInv_addFrame (d : Database) (name : String) (h : DbInv d) :
    DbInv (d.addFrame name).1 := by
  rw [addFrame_eq]
  constructor
  · intro f hf
    simp at hf
    rcases hf with hf | rfl
    · exact Nat.lt_succ_of_lt (h.frameRef f hf)
    · exact Nat.lt_succ_self _
  · intro s hs
    exact Nat.lt_succ_of_lt (h.sliceRef s hs)
  · rw [List.nodup_append]
    refine ⟨h.framesNodup, List.nodup_singleton _, ?_⟩
    intro a ha hb
    simp at hb
    subst hb
    exact absurd (h.frameRef _ ha) (by simp)
  · exact h.slicesNodup
  · intro fsi hfsi
    simp only [List.mem_append] at hfsi ⊢
    rcases hfsi with hfsi | hfsi
    · exact Or.inl (h.fsiFrame fsi hfsi)
    · rw [List.mem_map] at hfsi
      obtain ⟨s, _, rfl⟩ := hfsi
      right
      simp [newFrameSliceIntersect]
  · intro fsi hfsi
    simp only [List.mem_append] at hfsi
    rcases hfsi with hfsi | hfsi
    · exact h.fsiSlice fsi hfsi
    · rw [List.mem_map] at hfsi
      obtain ⟨s, hs, rfl⟩ := hfsi
      simpa [newFrameSliceIntersect] using hs
  · intro f hf s hs
    simp only [List.mem_append, List.mem_singleton] at hf
    unfold countFSI
    simp only [List.filter_append, List.length_append]
    rcases hf with hf | rfl
    · have h1 := h.countOne f hf s hs
      unfold countFSI at h1
      have h2 : ((d.slices.map
          (newFrameSliceIntersect { ref := d.nextRef, name := name })).filter
            (fsiMatches f s)).length = 0 := by
        rw [List.length_eq_zero]
        apply List.filter_eq_nil_iff.mpr
        intro fsi hfsi
        rw [List.mem_map] at hfsi
        obtain ⟨s', _, rfl⟩ := hfsi
        simp [fsiMatches, newFrameSliceIntersect]
        intro hFf
        exfalso
        have := h.frameRef f hf
        rw [← hFf] at this
        simp at this
      omega
    · have h1 : (d.frame_slice_intersects.filter
          (fsiMatches { ref := d.nextRef, name := name } s)).length = 0 := by
        rw [List.length_eq_zero]
        apply List.filter_eq_nil_iff.mpr
        intro fsi hfsi
        simp [fsiMatches]
        intro hFf
        exfalso
        have := h.frameRef _ (h.fsiFrame fsi hfsi)
        rw [hFf] at this
        simp at this
      have h2 : ((d.slices.map
          (newFrameSliceIntersect { ref := d.nextRef, name := name })).filter
            (fsiMatches { ref := d.nextRef, name := name } s)).length = 1 := by
        rw [length_filter_map_eq]
        have heq : (d.slices.filter fun s' =>
            fsiMatches { ref := d.nextRef, name := name } s
              (newFrameSliceIntersect { ref := d.nextRef, name := name } s')) =
            (d.slices.filter fun s' => decide (s' = s)) := by
          apply List.filter_congr
          intro s' _
          simp [fsiMatches, newFrameSliceIntersect]
        rw [heq]
        exact filter_self_length_one d.slices s h.slicesNodup hs
      omega

theorem dbInv_addSlice (d : Database) (slice_id : Int) (h : DbInv d) :
    DbInv (d.addSlice slice_id).1 := by
  rw [addSlice_eq]
  constructor
  · intro f hf
    exact Nat.lt_succ_of_lt (h.frameRef f hf)
  · intro s hs
    simp at hs
    rcases hs with hs | rfl
    · exact Nat.lt_succ_of_lt (h.sliceRef s hs)
    · exact Nat.lt_succ_self _
  · exact h.framesNodup
  · rw [List.nodup_append]
    refine ⟨h.slicesNodup, List.nodup_singleton _, ?_⟩
    intro a ha hb
    simp at hb
    subst hb
    exact absurd (h.sliceRef _ ha) (by simp)
  · intro fsi hfsi
    simp only [List.mem_append] at hfsi
    rcases hfsi with hfsi | hfsi
    · exact h.fsiFrame fsi hfsi
    · rw [List.mem_map] at hfsi
      obtain ⟨f, hf, rfl⟩ := hfsi
      simpa [newFrameSliceIntersect] using hf
  · intro fsi hfsi
    simp only [List.mem_append] at hfsi ⊢
    rcases hfsi with hfsi | hfsi
    · exact Or.inl (h.fsiSlice fsi hfsi)
    · rw [List.mem_map] at hfsi
      obtain ⟨f, _, rfl⟩ := hfsi
      right
      simp [newFrameSliceIntersect]
  · intro f hf s hs
    simp only [List.mem_append, List.mem_singleton] at hs
    unfold countFSI
    simp only [List.filter_append, List.length_append]
    rcases hs with hs | rfl
    · have h1 := h.countOne f hf s hs
      unfold countFSI at h1
      have h2 : ((d.frames.map (fun frame =>
          newFrameSliceIntersect frame { ref := d.nextRef, id := slice_id })).filter
            (fsiMatches f s)).length = 0 := by
        rw [List.length_eq_zero]
        apply List.filter_eq_nil_iff.mpr
        intro fsi hfsi
        rw [List.mem_map] at hfsi
        obtain ⟨f', _, rfl⟩ := hfsi
        simp [fsiMatches, newFrameSliceIntersect]
        intro _ hSs
        exfalso
        have := h.sliceRef s hs
        rw [← hSs] at this
        simp at this
      omega
    · have h1 : (d.frame_slice_intersects.filter
          (fsiMatches f { ref := d.nextRef, id := slice_id })).length = 0 := by
        rw [List.length_eq_zero]
        apply List.filter_eq_nil_iff.mpr
        intro fsi hfsi
        simp [fsiMatches]
        intro _ hSs
        exfalso
        have := h.sliceRef _ (h.fsiSlice fsi hfsi)
        rw [hSs] at this
        simp at this
      have h2 : ((d.frames.map (fun frame =>
          newFrameSliceIntersect frame { ref := d.nextRef, id := slice_id })).filter
            (fsiMatches f { ref := d.nextRef, id := slice_id })).length = 1 := by
        rw [length_filter_map_eq]
        have heq : (d.frames.filter fun f' =>
            fsiMatches f { ref := d.nextRef, id := slice_id }
              (newFrameSliceIntersect f' { ref := d.nextRef, id := slice_id })) =
            (d.frames.filter fun f' => decide (f' = f)) := by
          apply List.filter_congr
          intro f' _
          simp [fsiMatches, newFrameSliceIntersect]
        rw [heq]
        exact filter_self_length_one d.frames f h.framesNodup hf
      omega

theorem dbInv_getOrCreateFrame (d : Database) (supported_frames : List String)
    (name : String) (h : DbInv d) : DbInv (d.GetOrCreateFrame supported_frames name).1 := by
  unfold Database.GetOrCreateFrame
  split
  · exact h
  · exact dbInv_addFrame d name h

theorem dbInv_getOrCreateSlice (d : Database) (slice_id : Int) (h : DbInv d) :
    DbInv (d.GetOrCreateSlice slice_id).1 := by
  unfold Database.GetOrCreateSlice
  split
  · exact h
  · exact dbInv_addSlice d slice_id h

theorem dbInv_applyOps (d : Database) (supported_frames : List String)
    (ops : List TopologyOp) (h : DbInv d) : DbInv (d.applyOps supported_frames ops) := by
  induction ops generalizing d with
  | nil => exact h
  | cons op ops ih =>
    show DbInv ((d.applyOp supported_frames op).applyOps supported_frames ops)
    apply ih
    cases op with
    | frameOp name => exact dbInv_getOrCreateFrame d supported_frames name h
    | sliceOp id => exact dbInv_getOrCreateSlice d id h

theorem getFSI_ok_of_countFSI_one (d : Database) (f : Frame) (s : Slice)
    (h : countFSI d f s = 1) :
    ∃ fsi, d.GetFrameSliceIntersect f s = .ok fsi := by
  unfold Database.GetFrameSliceIntersect
  cases hfind : d.frame_slice_intersects.find? (fsiMatches f s) with
  | some fsi => exact ⟨fsi, rfl⟩
  | none =>
    exfalso
    rw [List.find?_eq_none] at hfind
    unfold countFSI at h
    rw [List.filter_eq_nil_iff.mpr hfind] at h
    simp at h

/-! ## Claim theorems -/

/-- C8: `GetSlice` (the spec's `ComputeSliceId`) is integer floor division
of the item id by `SLICE_WIDTH = 1048576`; in particular it maps 0 and
1048575 to slice 0 and 1048576 to slice 1. It is a plain function of its
argument, hence pure and stateless. -/
theorem computeSliceId_spec :
    SLICE_WIDTH = 1048576 ∧
    (∀ itemId : Nat, GetSlice itemId = Int.ofNat (itemId / SLICE_WIDTH)) ∧
    GetSlice 0 = 0 ∧ GetSlice 1048575 = 0 ∧ GetSlice 1048576 = 1 :=
  ⟨rfl, fun _ => rfl, rfl, rfl, rfl⟩

/-- C6: `GetFragmentForBitmap` on a fixed database state is a pure
function of `bitmap.Id` (and the frame type naming the ring): two bitmaps
agreeing on `Id` and `FrameType` — regardless of `Filter` — yield the
same fragment and the same error outcome. -/
theorem getFragmentForBitmap_deterministic (supported_frames : List String) (d : Database)
    (slice : Slice) (b1 b2 : Bitmap) (hid : b1.Id = b2.Id)
    (hft : b1.FrameType = b2.FrameType) :
    d.GetFragmentForBitmap supported_frames slice b1 =
      d.GetFragmentForBitmap supported_frames slice b2 := by
  obtain ⟨i1, t1, f1⟩ := b1
  obtain ⟨i2, t2, f2⟩ := b2
  dsimp at hid hft
  subst hid
  subst hft
  rfl

theorem getFragmentForBitmap_deterministic_witness :
    (emptyDatabase "d").GetFragmentForBitmap default_supported_frames { ref := 0, id := 0 }
        { Id := 42, FrameType := "default", Filter := 0 } =
      (emptyDatabase "d").GetFragmentForBitmap default_supported_frames { ref := 0, id := 0 }
        { Id := 42, FrameType := "default", Filter := 7 } :=
  getFragmentForBitmap_deterministic _ _ _ _ _ rfl rfl

/-- C7: `Cluster.GetOrCreateDatabase` returns the registered database
unchanged when the name is present; otherwise it registers and returns a
new empty database, touching no other name; a repeated call returns the
same database and state. -/
theorem getOrCreateDatabase_spec (c : Cluster) (name : String) :
    (∀ db, c.databases name = some db → c.GetOrCreateDatabase name = (c, db)) ∧
    (c.databases name = none →
      (c.GetOrCreateDatabase name).2 = emptyDatabase name ∧
      (c.GetOrCreateDatabase name).1.databases name = some (emptyDatabase name) ∧
      ∀ n, n ≠ name → (c.GetOrCreateDatabase name).1.databases n = c.databases n) ∧
    (c.GetOrCreateDatabase name).1.GetOrCreateDatabase name =
      ((c.GetOrCreateDatabase name).1, (c.GetOrCreateDatabase name).2) := by
  cases h : c.databases name with
  | some db =>
    have hr : c.GetOrCreateDatabase name = (c, db) := by
      unfold Cluster.GetOrCreateDatabase Cluster.getDatabase
      rw [h]
    refine ⟨?_, ?_, ?_⟩
    · intro db' hdb'
      cases hdb'
      exact hr
    · intro hnone
      cases hnone
    · rw [hr]
      exact hr
  | none =>
    have hr : c.GetOrCreateDatabase name = c.addDatabase name := by
      unfold Cluster.GetOrCreateDatabase Cluster.getDatabase
      rw [h]
    have hadd1 : (c.addDatabase name).1.databases name = some (emptyDatabase name) := by
      unfold Cluster.addDatabase
      simp
    refine ⟨?_, ?_, ?_⟩
    · intro db' hdb'
      cases hdb'
    · intro _
      rw [hr]
      refine ⟨rfl, hadd1, ?_⟩
      intro n hn
      unfold Cluster.addDatabase
      simp [hn]
    · rw [hr]
      unfold Cluster.GetOrCreateDatabase Cluster.getDatabase
      rw [hadd1]
      rfl

theorem getOrCreateDatabase_spec_witness :
    (NewCluster.GetOrCreateDatabase "x").2 = emptyDatabase "x" ∧
    (NewCluster.GetOrCreateDatabase "x").1.databases "x" = some (emptyDatabase "x") ∧
    (NewCluster.GetOrCreateDatabase "x").1.databases "y" = NewCluster.databases "y" :=
  ⟨((getOrCreateDatabase_spec NewCluster "x").2.1 rfl).1,
   ((getOrCreateDatabase_spec NewCluster "x").2.1 rfl).2.1,
   ((getOrCreateDatabase_spec NewCluster "x").2.1 rfl).2.2 "y" (by decide)⟩

/-- C1 counterexample: with the default allow-list, `GetOrCreateFrame`
applied to the absent name "other" does not fail with `InvalidFrame` — it
creates a frame named "other" in the database and returns it. -/
theorem getOrCreateFrame_other_creates :
    IsValidFrame default_supported_frames "other" = false ∧
    ((emptyDatabase "t").GetOrCreateFrame default_supported_frames "other").1.frames =
      [{ ref := 0, name := "other" }] ∧
    ((emptyDatabase "t").GetOrCreateFrame default_supported_frames "other").2 =
      { ref := 0, name := "other" } :=
  ⟨rfl, rfl, rfl⟩

/-- C1 (amended): for every frame name absent from the configured
allow-list, the lookup `Database.getFrame(name)` fails with
`InvalidFrame`; `Database.GetOrCreateFrame(name)` however does not fail —
it swallows that error and appends and returns a fresh frame carrying the
invalid name. -/
theorem invalidName_getFrame_invalidFrame (supported_frames : List String) (d : Database)
    (name : String) (h : IsValidFrame supported_frames name = false) :
    d.getFrame supported_frames name = .error .InvalidFrame ∧
    (d.GetOrCreateFrame supported_frames name).1.frames =
      d.frames ++ [(d.GetOrCreateFrame supported_frames name).2] ∧
    (d.GetOrCreateFrame supported_frames name).2.name = name := by
  have hg : d.getFrame supported_frames name = .error .InvalidFrame := by
    unfold Database.getFrame
    rw [h]
    rfl
  have hgo : d.GetOrCreateFrame supported_frames name = d.addFrame name := by
    unfold Database.GetOrCreateFrame
    rw [hg]
  rw [hgo, addFrame_eq]
  exact ⟨hg, rfl, rfl⟩

theorem invalidName_getFrame_invalidFrame_witness :
    IsValidFrame default_supported_frames "other" = false ∧
    ((emptyDatabase "w1").getFrame default_supported_frames "other" = .error .InvalidFrame ∧
      ((emptyDatabase "w1").GetOrCreateFrame default_supported_frames "other").1.frames =
        (emptyDatabase "w1").frames ++
          [((emptyDatabase "w1").GetOrCreateFrame default_supported_frames "other").2] ∧
      ((emptyDatabase "w1").GetOrCreateFrame default_supported_frames "other").2.name =
        "other") :=
  ⟨rfl, invalidName_getFrame_invalidFrame default_supported_frames (emptyDatabase "w1")
    "other" rfl⟩

/-- C10: for a name outside the allow-list, every `GetOrCreateFrame` call
appends a fresh frame (with a fresh intersect per existing slice), because
`getFrame` rejects the name before scanning the frame list; two
successive calls return distinct frames both named `name`, breaking
frame-name uniqueness. -/
theorem invalidName_duplicate_frames (supported_frames : List String) (d : Database)
    (name : String) (h : IsValidFrame supported_frames name = false) :
    (d.GetOrCreateFrame supported_frames name).1.frame_slice_intersects =
      d.frame_slice_intersects ++
        d.slices.map (newFrameSliceIntersect (d.GetOrCreateFrame supported_frames name).2) ∧
    ((d.GetOrCreateFrame supported_frames name).1.GetOrCreateFrame
        supported_frames name).1.frames =
      d.frames ++ [(d.GetOrCreateFrame supported_frames name).2,
        ((d.GetOrCreateFrame supported_frames name).1.GetOrCreateFrame
          supported_frames name).2] ∧
    (d.GetOrCreateFrame supported_frames name).2 ≠
      ((d.GetOrCreateFrame supported_frames name).1.GetOrCreateFrame
        supported_frames name).2 ∧
    (d.GetOrCreateFrame supported_frames name).2.name = name ∧
    ((d.GetOrCreateFrame supported_frames name).1.GetOrCreateFrame
      supported_frames name).2.name = name := by
  have hgo : ∀ d' : Database, d'.GetOrCreateFrame supported_frames name = d'.addFrame name := by
    intro d'
    unfold Database.GetOrCreateFrame Database.getFrame
    rw [h]
    rfl
  rw [hgo, hgo, addFrame_eq, addFrame_eq]
  refine ⟨rfl, by simp, ?_, rfl, rfl⟩
  dsimp
  intro hcontra
  rw [Frame.mk.injEq] at hcontra
  omega

theorem invalidName_duplicate_frames_witness :
    IsValidFrame default_supported_frames "other" = false ∧
    ((emptyDatabase "w2").GetOrCreateFrame default_supported_frames "other").2 ≠
      (((emptyDatabase "w2").GetOrCreateFrame default_supported_frames "other").1.GetOrCreateFrame
        default_supported_frames "other").2 ∧
    (((emptyDatabase "w2").GetOrCreateFrame default_supported_frames "other").1.GetOrCreateFrame
        default_supported_frames "other").1.frames =
      (emptyDatabase "w2").frames ++
        [((emptyDatabase "w2").GetOrCreateFrame default_supported_frames "other").2,
          (((emptyDatabase "w2").GetOrCreateFrame default_supported_frames
            "other").1.GetOrCreateFrame default_supported_frames "other").2] :=
  ⟨rfl,
   (invalidName_duplicate_frames default_supported_frames (emptyDatabase "w2")
     "other" rfl).2.2.1,
   (invalidName_duplicate_frames default_supported_frames (emptyDatabase "w2")
     "other" rfl).2.1⟩

/-- C3: `GetFragmentForBitmap` with a frame type never registered in the
database returns the typed failure `InvalidFrame` (name outside the
allow-list) or `FrameDoesNotExist` (valid but unregistered name) — it
does not crash, and, being a read-only method (modelled as a pure
function of the database value), it mutates no state. -/
theorem missingFrame_propagation (supported_frames : List String) (d : Database)
    (slice : Slice) (bitmap : Bitmap)
    (h : ∀ f ∈ d.frames, f.name ≠ bitmap.FrameType) :
    d.GetFragmentForBitmap supported_frames slice bitmap = .error .InvalidFrame ∨
    d.GetFragmentForBitmap supported_frames slice bitmap = .error .FrameDoesNotExist := by
  unfold Database.GetFragmentForBitmap Database.getFrame
  by_cases hv : IsValidFrame supported_frames bitmap.FrameType
  · right
    have hfind : d.frames.find? (fun frame => frame.name == bitmap.FrameType) = none := by
      rw [List.find?_eq_none]
      intro f hf
      simpa using h f hf
    rw [hv, hfind]
    rfl
  · left
    rw [Bool.not_eq_true] at hv
    rw [hv]
    rfl

theorem missingFrame_propagation_witness :
    (∀ f ∈ (emptyDatabase "w3").frames, f.name ≠ "zzz") ∧
    ((emptyDatabase "w3").GetFragmentForBitmap default_supported_frames { ref := 0, id := 0 }
        { Id := 42, FrameType := "zzz", Filter := 0 } = .error .InvalidFrame ∨
      (emptyDatabase "w3").GetFragmentForBitmap default_supported_frames { ref := 0, id := 0 }
        { Id := 42, FrameType := "zzz", Filter := 0 } = .error .FrameDoesNotExist) :=
  ⟨by simp [emptyDatabase],
   missingFrame_propagation default_supported_frames (emptyDatabase "w3") { ref := 0, id := 0 }
     { Id := 42, FrameType := "zzz", Filter := 0 } (by simp [emptyDatabase])⟩

/-- C2: cross-product invariant — after any sequence of
`GetOrCreateFrame` / `GetOrCreateSlice` calls on a fresh database (and so
after each call of such a sequence), for every frame and every slice
present in the database, `GetFrameSliceIntersect` succeeds, and exactly
one intersect exists for the pair. -/
theorem crossProduct_invariant (supported_frames : List String) (nm : String)
    (ops : List TopologyOp) (f : Frame) (s : Slice)
    (hf : f ∈ ((emptyDatabase nm).applyOps supported_frames ops).frames)
    (hs : s ∈ ((emptyDatabase nm).applyOps supported_frames ops).slices) :
    (∃ fsi, ((emptyDatabase nm).applyOps supported_frames ops).GetFrameSliceIntersect f s =
      .ok fsi) ∧
    countFSI ((emptyDatabase nm).applyOps supported_frames ops) f s = 1 := by
  have hinv := dbInv_applyOps (emptyDatabase nm) supported_frames ops (dbInv_empty nm)
  have hcount := hinv.countOne f hf s hs
  exact ⟨getFSI_ok_of_countFSI_one _ f s hcount, hcount⟩

theorem crossProduct_invariant_witness :
    ({ ref := 0, name := "default" } ∈
      ((emptyDatabase "w4").applyOps default_supported_frames
        [TopologyOp.frameOp "default", TopologyOp.sliceOp 0]).frames) ∧
    ({ ref := 1, id := 0 } ∈
      ((emptyDatabase "w4").applyOps default_supported_frames
        [TopologyOp.frameOp "default", TopologyOp.sliceOp 0]).slices) ∧
    ((∃ fsi, ((emptyDatabase "w4").applyOps default_supported_frames
        [TopologyOp.frameOp "default", TopologyOp.sliceOp 0]).GetFrameSliceIntersect
          { ref := 0, name := "default" } { ref := 1, id := 0 } = .ok fsi) ∧
      countFSI ((emptyDatabase "w4").applyOps default_supported_frames
        [TopologyOp.frameOp "default", TopologyOp.sliceOp 0])
          { ref := 0, name := "default" } { ref := 1, id := 0 } = 1) :=
  ⟨by decide, by decide,
   crossProduct_invariant default_supported_frames "w4"
     [TopologyOp.frameOp "default", TopologyOp.sliceOp 0]
     { ref := 0, name := "default" } { ref := 1, id := 0 } (by decide) (by decide)⟩

theorem ring_members_aux (fsi : FrameSliceIntersect) (frags : List Fragment)
    (h : fsi.hashring.members = fsi.fragments.map fun fr => SUUID_to_Hex fr.id) :
    (frags.foldl FrameSliceIntersect.AddFragment fsi).hashring.members =
      (frags.foldl FrameSliceIntersect.AddFragment fsi).fragments.map
        (fun fr => SUUID_to_Hex fr.id) := by
  induction frags generalizing fsi with
  | nil => exact h
  | cons a l ih =>
    rw [List.foldl_cons]
    apply ih
    simp [FrameSliceIntersect.AddFragment, Consistent.Add, h]

theorem ring_replicas_aux (fsi : FrameSliceIntersect) (frags : List Fragment) :
    (frags.foldl FrameSliceIntersect.AddFragment fsi).hashring.NumberOfReplicas =
      fsi.hashring.NumberOfReplicas := by
  induction frags generalizing fsi with
  | nil => rfl
  | cons a l ih =>
    rw [List.foldl_cons, ih]
    rfl

/-- C5: starting from the intersect `AddFrameSliceIntersect` allocates,
after any sequence of `AddFragment` calls the ring member list is exactly
the hex-encoded identifiers of the intersect's fragments (so the member
set mirrors the fragment set), and the ring keeps its replication factor
of 16 virtual positions per member. -/
theorem ring_mirrors_fragments (frame : Frame) (slice : Slice) (frags : List Fragment) :
    (frags.foldl FrameSliceIntersect.AddFragment
        (newFrameSliceIntersect frame slice)).hashring.members =
      (frags.foldl FrameSliceIntersect.AddFragment
        (newFrameSliceIntersect frame slice)).fragments.map
          (fun fr => SUUID_to_Hex fr.id) ∧
    (frags.foldl FrameSliceIntersect.AddFragment
        (newFrameSliceIntersect frame slice)).hashring.NumberOfReplicas = 16 := by
  constructor
  · exact ring_members_aux _ _ rfl
  · rw [ring_replicas_aux]
    rfl

theorem routing_single_member (d : Database) (supported_frames : List String) (S : Slice)
    (bitmap : Bitmap) (F : Frame) (fid : SUUID)
    (hframe : d.getFrame supported_frames bitmap.FrameType = .ok F)
    (hfsi : d.GetFrameSliceIntersect F S =
      .ok { frame := F, slice := S, fragments := [{ id := fid, process := none }],
            hashring := { NumberOfReplicas := 16, members := [SUUID_to_Hex fid] } }) :
    d.GetFragmentForBitmap supported_frames S bitmap = .ok { id := fid, process := none } := by
  unfold Database.GetFragmentForBitmap
  rw [hframe]
  dsimp only
  rw [hfsi]
  dsimp only
  rw [consistentGet_single 16 (by decide) (SUUID_to_Hex fid) (toString bitmap.Id)]
  dsimp only
  rw [hex_roundtrip]
  unfold FrameSliceIntersect.GetFragment
  simp

/-- C4: single-fragment routing — after creating a database, the frame
"default", slice 0, and one fragment `fragId1` in their intersect,
`GetFragmentForBitmap` for a bitmap with id 42 and frame type "default"
returns exactly the fragment `fragId1` created (the sole ring member),
for any fragment identifier and any bitmap filter value. -/
theorem single_fragment_routing (fragId1 : SUUID) (filter : Nat) :
    (let r1 := (emptyDatabase "d").GetOrCreateFrame default_supported_frames "default"
     let r2 := r1.1.GetOrCreateSlice 0
     let r3 := r2.1.GetOrCreateFragment r1.2 r2.2 fragId1
     r3.2 = some { id := fragId1, process := none } ∧
     r3.1.GetFragmentForBitmap default_supported_frames r2.2
       { Id := 42, FrameType := "default", Filter := filter } =
         .ok { id := fragId1, process := none }) := by
  dsimp only
  refine ⟨rfl, ?_⟩
  exact routing_single_member _ default_supported_frames _ _
    { ref := 0, name := "default" } fragId1 rfl rfl

/-- C9: a fragment freshly created by `GetOrCreateFragment` carries no
process; on it, `GetProcessId` and `GetLocation` dereference the nil
process pointer and panic (modelled as the `nilPointerDereference`
error) rather than returning a value or typed failure; after
`SetProcess` both calls succeed. -/
theorem unassignedProcess_crash (d : Database) (frame : Frame) (slice : Slice)
    (fragment_id : SUUID) (frag : Fragment)
    (hmiss : exceptOk (d.getFragment frame slice fragment_id) = false)
    (hres : (d.GetOrCreateFragment frame slice fragment_id).2 = some frag) :
    frag.GetProcessId = .error .nilPointerDereference ∧
    frag.GetLocation = .error .nilPointerDereference ∧
    ∀ process : Process, (frag.SetProcess process).GetProcessId = .ok process.id ∧
      (frag.SetProcess process).GetLocation =
        .ok { ProcessId := process.id, FragmentId := frag.id } := by
  have hfrag : frag = { id := fragment_id, process := none } := by
    unfold Database.GetOrCreateFragment at hres
    cases hg : d.getFragment frame slice fragment_id with
    | ok f0 =>
      rw [hg] at hmiss
      simp [exceptOk] at hmiss
    | error e =>
      rw [hg] at hres
      dsimp only at hres
      unfold Database.addFragment at hres
      cases hfsi : d.GetFrameSliceIntersect frame slice with
      | error e2 =>
        rw [hfsi] at hres
        simp at hres
      | ok fsi =>
        rw [hfsi] at hres
        simp at hres
        exact hres.symm
  subst hfrag
  exact ⟨rfl, rfl, fun process => ⟨rfl, rfl⟩⟩

theorem unassignedProcess_crash_witness :
    exceptOk ((Database.mk "w5" [{ ref := 0, name := "default" }] [{ ref := 1, id := 0 }]
        [newFrameSliceIntersect { ref := 0, name := "default" } { ref := 1, id := 0 }]
        2).getFragment
          { ref := 0, name := "default" } { ref := 1, id := 0 } 7) = false ∧
    ((Database.mk "w5" [{ ref := 0, name := "default" }] [{ ref := 1, id := 0 }]
        [newFrameSliceIntersect { ref := 0, name := "default" } { ref := 1, id := 0 }]
        2).GetOrCreateFragment
          { ref := 0, name := "default" } { ref := 1, id := 0 } 7).2 =
      some { id := 7, process := none } ∧
    Fragment.GetProcessId { id := 7, process := none } = .error .nilPointerDereference ∧
    Fragment.GetLocation { id := 7, process := none } = .error .nilPointerDereference ∧
    (Fragment.SetProcess { id := 7, process := none } (NewProcess (some 3))).GetProcessId =
      .ok (some 3) :=
  ⟨rfl, rfl,
   (unassignedProcess_crash
     (Database.mk "w5" [{ ref := 0, name := "default" }] [{ ref := 1, id := 0 }]
       [newFrameSliceIntersect { ref := 0, name := "default" } { ref := 1, id := 0 }] 2)
     { ref := 0, name := "default" } { ref := 1, id := 0 } 7
     { id := 7, process := none } rfl rfl).1,
   (unassignedProcess_crash
     (Database.mk "w5" [{ ref := 0, name := "default" }] [{ ref := 1, id := 0 }]
       [newFrameSliceIntersect { ref := 0, name := "default" } { ref := 1, id := 0 }] 2)
     { ref := 0, name := "default" } { ref := 1, id := 0 } 7
     { id := 7, process := none } rfl rfl).2.1,
   ((unassignedProcess_crash
     (Database.mk "w5" [{ ref := 0, name := "default" }] [{ ref := 1, id := 0 }]
       [newFrameSliceIntersect { ref := 0, name := "default" } { ref := 1, id := 0 }] 2)
     { ref := 0, name := "default" } { ref := 1, id := 0 } 7
     { id := 7, process := none } rfl rfl).2.2 (NewProcess (some 3))).1⟩
